import Mathlib

/-!
Shallow embedding of the content-automation pipeline in
`Automation-Blog-and-Promotion.py`: the topic-history store, the
duplicate detector, the topic generator, the blog-post generator, and
the image transcoder.  Pure Python functions become Lean functions;
file-system state becomes explicit state passing; external services
(the text-generation API, the JPEG encoder) become function parameters.
Python floats are modelled by exact rationals.
-/

namespace AutomationBlog

/-!  Model of `difflib.SequenceMatcher` (CPython standard library), as
used by `is_topic_duplicate`: `SequenceMatcher(None, a, b).ratio()`.
The junk parameter is `None`; the `autojunk` popular-element heuristic
only activates for second sequences of length ≥ 200 and is not
modelled.  With no junk, the post-DP junk-extension loops of
`find_longest_match` are no-ops, so the model is the plain
longest-matching-block dynamic program with CPython's tie-breaking
(earliest position in `a`, then earliest in `b`).  -/

/-- One row of the longest-matching-block dynamic program: CPython's
`j2len` update.  Entry `j` of the result is `prev[j-1] + 1` when
`b[j] = c`, else `0`; `diag` carries `prev[j-1]` for the current head. -/
def lmRow (c : Char) : List Char → List ℕ → ℕ → List ℕ
  | [], _, _ => []
  | bj :: bs, prev, diag =>
      (if bj = c then diag + 1 else 0) :: lmRow c bs prev.tail (prev.headD 0)

/-- Fold a DP row into the current best block `(besti, bestj, bestsize)`,
mirroring CPython's `if k > bestsize: besti, bestj, bestsize = i-k+1,
j-k+1, k` with `i` the row index and `j` ascending. -/
def scanRow (i : ℕ) : ℕ → List ℕ → ℕ × ℕ × ℕ → ℕ × ℕ × ℕ
  | _, [], best => best
  | j, k :: rest, best =>
      scanRow i (j + 1) rest
        (if best.2.2 < k then (i + 1 - k, j + 1 - k, k) else best)

/-- Run the DP over the rows of `a` (row index `i`, previous row `prev`),
accumulating the best matching block. -/
def findLongestMatchAux (b : List Char) : List Char → ℕ → List ℕ → ℕ × ℕ × ℕ → ℕ × ℕ × ℕ
  | [], _, _, best => best
  | ai :: rest, i, prev, best =>
      let row := lmRow ai b prev 0
      findLongestMatchAux b rest (i + 1) row (scanRow i 0 row best)

/-- CPython `SequenceMatcher.find_longest_match` restricted to whole
sequences (recursive calls below pass explicit sublists instead of
index windows), with no junk.  Returns `(i, j, size)`. -/
def findLongestMatch (a b : List Char) : ℕ × ℕ × ℕ :=
  findLongestMatchAux b a 0 (List.replicate b.length 0) (0, 0, 0)

/-- Total size of all matching blocks (the `matches` count summed by
`SequenceMatcher.ratio`): recursively split around the longest match,
as `get_matching_blocks` does.  Intervals strictly shrink at each
recursive call, so fuel `a.length + b.length + 1` never runs out. -/
def matchingTotalFuel : ℕ → List Char → List Char → ℕ
  | 0, _, _ => 0
  | fuel + 1, a, b =>
      match findLongestMatch a b with
      | (i, j, k) =>
        if k = 0 then 0
        else
          matchingTotalFuel fuel (a.take i) (b.take j) + k +
            matchingTotalFuel fuel (a.drop (i + k)) (b.drop (j + k))

/-- Sum of the sizes of the matching blocks of two character sequences. -/
def matchingTotal (a b : List Char) : ℕ :=
  matchingTotalFuel (a.length + b.length + 1) a b

/-- CPython `SequenceMatcher.ratio`: `2.0 * matches / (len(a) + len(b))`,
and `1.0` when both sequences are empty; floats are modelled exactly as
rationals. -/
def ratioQ (a b : String) : ℚ :=
  if a.length + b.length = 0 then 1
  else (2 * matchingTotal a.data b.data : ℚ) / (a.length + b.length)

/-- Python `str.lower()`, character-wise ASCII lowering (Lean's
`Char.toLower`; Python is additionally Unicode-aware, which the ASCII
topic strings never exercise). -/
def pyLower (s : String) : String := ⟨s.data.map Char.toLower⟩

/-!  `is_topic_duplicate` (source lines 313–320): loop over the existing
titles, compare the lowercased candidate with each lowercased title,
return `True` on the first similarity ≥ threshold, else `False` after
the loop.  The Python default `threshold=0.8` is passed explicitly as
`4/5` at call sites. -/

/-- Translation of `is_topic_duplicate(new_topic, existing_titles,
threshold)`. -/
def isTopicDuplicate (newTopic : String) (existingTitles : List String) (threshold : ℚ) : Bool :=
  match existingTitles with
  | [] => false
  | title :: rest =>
      if threshold ≤ ratioQ (pyLower newTopic) (pyLower title) then true
      else isTopicDuplicate newTopic rest threshold

/-!  Topic-history store (`load_past_topics` / `save_past_topic`,
source lines 203–228).  The history file `past_topics.json` is modelled
by the states the code distinguishes: absent, unreadable (an `IOError`
on open/read), corrupted JSON (a `JSONDecodeError`), or a JSON array of
strings. -/

/-- Observable states of the `past_topics.json` file. -/
inductive TopicFile where
  | absent
  | unreadable
  | corruptJson
  | jsonArray (xs : List String)

/-- Python exceptions relevant to `load_past_topics`; both are caught
by its `except (json.JSONDecodeError, IOError)` clause. -/
inductive PyErr where
  | ioError
  | jsonDecodeError

/-- Python `os.path.exists(TOPIC_HISTORY_FILE)`. -/
def topicFileExists : TopicFile → Bool
  | .absent => false
  | _ => true

/-- Opening and parsing, `open(...)` followed by `json.load(file)`: raises `IOError` when the
file cannot be read and `JSONDecodeError` when its contents do not
parse; otherwise produces the parsed array. -/
def openAndParseTopics : TopicFile → Except PyErr (List String)
  | .absent => .error .ioError
  | .unreadable => .error .ioError
  | .corruptJson => .error .jsonDecodeError
  | .jsonArray xs => .ok xs

/-- Translation of `load_past_topics()`: existence check, then
`json.load(file) or []` (Python `or` maps a falsy — empty — array to
`[]`), with `IOError` and `JSONDecodeError` caught and turned into
`[]`.  An `Except.error` result would model an uncaught exception;
the function only ever produces `Except.ok`. -/
def loadPastTopics (f : TopicFile) : Except PyErr (List String) :=
  if topicFileExists f then
    match openAndParseTopics f with
    | .ok xs => .ok (if xs.isEmpty then [] else xs)
    | .error .ioError => .ok []
    | .error .jsonDecodeError => .ok []
  else
    .ok []

/-- Translation of the state change of `save_past_topic(topic)` on the
loaded history list: `past_topics.insert(0, topic)` then
`past_topics[:30]`, the result being written back to the file. -/
def savePastTopic (pastTopics : List String) (topic : String) : List String :=
  (topic :: pastTopics).take 30

/-!  Topic generator (`generate_unique_topic`, source lines 322–361).
The text-generation service is a parameter mapping the attempt index to
its outcome: a (stripped) topic string, a `requests.exceptions.Timeout`,
or any other exception.  `time.sleep(2)` after a timeout is modelled by
accumulating slept seconds in the second component of the result. -/

/-- Outcome of one `client.chat.completions.create` call for a topic. -/
inductive ApiResult where
  | ok (topic : String)
  | timeout
  | otherError

/-- Hardcoded fallback returned after all retries are exhausted. -/
def fallbackTopic : String := "Cybersecurity and IT Leadership Trends in 2025"

/-- Loop body of `generate_unique_topic`: `i` is the attempt index,
the second argument the remaining iterations of `range(retries)`.
A generated topic is returned when it is not flagged by
`is_topic_duplicate` against the existing titles (default threshold
`0.8`) and is not an exact member of the last-30 history; a timeout
sleeps 2 seconds and retries; any other error returns `None`;
exhaustion returns the fallback topic. -/
def generateUniqueTopicAux (existingTitles last30 : List String)
    (service : ℕ → ApiResult) : ℕ → ℕ → Option String × ℕ
  | _, 0 => (some fallbackTopic, 0)
  | i, fuel + 1 =>
      match service i with
      | .ok t =>
          if isTopicDuplicate t existingTitles (4/5) = false ∧ t ∉ last30 then
            (some t, 0)
          else
            generateUniqueTopicAux existingTitles last30 service (i + 1) fuel
      | .timeout =>
          let r := generateUniqueTopicAux existingTitles last30 service (i + 1) fuel
          (r.1, r.2 + 2)
      | .otherError => (none, 0)

/-- Translation of `generate_unique_topic(existing_titles, retries)`;
`last30` is `load_past_topics()[:30]`, supplied by the caller.  Result:
the returned value and the total seconds slept in backoff. -/
def generateUniqueTopic (existingTitles last30 : List String)
    (service : ℕ → ApiResult) (retries : ℕ) : Option String × ℕ :=
  generateUniqueTopicAux existingTitles last30 service 0 retries

/-!  Blog-post generator (`generate_blog_post`, source lines 363–404)
and the `__main__` guard before the publish sequence (lines 869–872). -/

/-- Translation of `format_signature(format_type)` (source lines
161–199); the HTML and twitter bodies are the source's literals with
their embedded newlines and indentation. -/
def formatSignature (formatType : String) : String :=
  if formatType = "html" then
    "\n         <p style=\"font-weight: bold;\">In partnership,<br>\n         Tim</p>\n         <p style=\"font-weight: bold; font-size: 1.1em; color: #0056b3;\">\n         <em>Find me here:</em></p>\n         <p>\n           <a href=\"https://timgabaree.com\" target=\"_blank\">\n             <img src=\"https://timgabaree.com/media/timgabaree_profile7_200x200.png\" width=\"32\" height=\"32\" alt=\"Website\">\n           </a>\n           <a href=\"https://timgabaree.blogspot.com\" target=\"_blank\">\n             <img src=\"https://timgabaree.com/media/social_media_blogger_icon.png\" width=\"32\" height=\"32\" alt=\"Blog\">\n           </a>\n           <a href=\"https://linkedin.com/in/tim-gabaree\" target=\"_blank\">\n             <img src=\"https://timgabaree.com/media/social_media_linkedin_icon.png\" width=\"32\" height=\"32\" alt=\"LinkedIn\">\n           </a>\n          <a href=\"https://x.com/timgabaree/\" target=\"_blank\">\n             <img src=\"https://timgabaree.com/media/logo-black.png\" width=\"32\" height=\"32\" alt=\"X.com\">\n           </a>\n          <a href=\"https://bsky.app/profile/timgabaree.bsky.social\" target=\"_blank\">\n             <img src=\"https://timgabaree.com/media/Bluesky_Logo.png\" width=\"32\" height=\"32\" alt=\"BlueSky\">\n           </a>\n         </p>\n         "
  else if formatType = "twitter" then
    "\n\n\n        In partnership,\n\n        Tim\n\n\n        Find me here: \n\n        🌐 Website: https://timgabaree.com\n\n        📝 Blog: https://timgabaree.blogspot.com\n\n        🔗 LinkedIn: https://linkedin.com/in/tim-gabaree\n        "
  else ""

/-- Python truthiness of an optional string: `None` and `""` are falsy. -/
def pyTruthy (s? : Option String) : Bool :=
  match s? with
  | none => false
  | some s => !s.isEmpty

/-- Outcome of the article-body `client.chat.completions.create` call:
either the (stripped) content or any exception. -/
abbrev BodyResult := Except Unit String

/-- Translation of `generate_blog_post()` as a transformer of the
persisted history list.  It fetches a topic via
`generate_unique_topic` (whose `last_30_titles` is
`load_past_topics()[:30]`), bails out with `(None, None)` when the
topic is falsy, requests the article body, bails out with
`(None, None)` on any body-generation exception, and only on success
appends the signature, persists the topic with `save_past_topic`, and
returns the pair `(full_post, topic)`. -/
def generateBlogPost (existingTitles : List String) (topicService : ℕ → ApiResult)
    (bodyService : BodyResult) (history : List String) :
    (Option String × Option String) × List String :=
  match (generateUniqueTopic existingTitles (history.take 30) topicService 5).1 with
  | none => ((none, none), history)
  | some topic =>
      if topic.isEmpty then ((none, none), history)
      else
        match bodyService with
        | .error _ => ((none, none), history)
        | .ok content =>
            ((some (content ++ formatSignature ("html")), some topic),
              savePastTopic history topic)

/-- Translation of the `__main__` guard `if not blog_post_content or
not topic: exit()`: the publish/promote sequence (starting with
`post_to_blogger`) runs exactly when this is `true`. -/
def runPublishes (content? topic? : Option String) : Bool :=
  pyTruthy content? && pyTruthy topic?

/-!  Image transcoder (`compress_and_resize_image`, source lines
617–649).  The file system is a map from paths to byte contents; the
JPEG encoder for the (already thumbnailed) source image is a parameter
mapping an encode quality to the bytes it produces.  Python's
`os.path.getsize(...) / 1024 <= max_size_kb` float comparison is exact
for byte counts in range, and is modelled as `bytes ≤ max_size_kb *
1024`. -/

/-- Source constant `FALLBACK_IMAGE_DIRECTORY` (line 86). -/
def FALLBACK_IMAGE_DIRECTORY : String :=
  "/Users/timgabaree/Library/CloudStorage/Dropbox/Projects/Python/automationProject1/media/fallback_images"

/-- POSIX `os.path.join` for a non-empty directory without a trailing
separator, the only shape it is applied to here. -/
def osPathJoin (dir name : String) : String := dir ++ "/" ++ name

/-- Fallback returned when the source image is absent. -/
def fallbackImagePath : String :=
  osPathJoin FALLBACK_IMAGE_DIRECTORY "default_fallback_image.png"

/-- Fallback returned when the compressed output is missing after the
loop. -/
def fallbackCompressedImagePath : String :=
  osPathJoin FALLBACK_IMAGE_DIRECTORY "default_fallback_image_compressed.jpg"

/-- Python `image_path.rsplit(".", 1)[0]` on the character list: the
part before the last `'.'`, or the whole string when there is none. -/
def stemData (cs : List Char) : List Char :=
  if '.' ∈ cs then ((cs.reverse.dropWhile (fun c => c ≠ '.')).drop 1).reverse
  else cs

/-- Derived output path: `image_path.rsplit(".", 1)[0] +
"_compressed.jpg"`. -/
def compressedImagePath (p : String) : String :=
  String.mk (stemData p.data) ++ "_compressed.jpg"

/-- Quality-reduction loop of `compress_and_resize_image`: starting
from `quality`, re-encode and stop as soon as the written file is
within `max_size_kb` or the quality has fallen to 20, else step the
quality down by 5.  Returns the final encode quality. -/
def compressLoop (encode : ℕ → List ℕ) (maxSizeKB : ℕ) (quality : ℕ) : ℕ :=
  if h : (encode quality).length ≤ maxSizeKB * 1024 ∨ quality ≤ 20 then quality
  else compressLoop encode maxSizeKB (quality - 5)
termination_by quality
decreasing_by push_neg at h; omega

/-- Translation of `compress_and_resize_image(image_path, max_size_kb,
max_dimensions)` as a file-system transformer returning the new file
system and the returned path.  `encode q` is the JPEG byte string
produced by `img.convert("RGB").save(..., quality=q)` for the
thumbnailed image; each loop iteration overwrites the same derived
path, so the final file system carries the bytes of the final
quality. -/
def compressAndResizeImage (encode : ℕ → List ℕ) (fs : String → Option (List ℕ))
    (imagePath : String) (maxSizeKB : ℕ) : (String → Option (List ℕ)) × String :=
  if fs imagePath = none then (fs, fallbackImagePath)
  else
    let cpath := compressedImagePath imagePath
    let q := compressLoop encode maxSizeKB 85
    let fs2 := fun s => if s = cpath then some (encode q) else fs s
    (fs2, if fs2 cpath ≠ none then cpath else fallbackCompressedImagePath)

/-!  Bounding-box resize: `img.thumbnail(max_dimensions,
Image.Resampling.LANCZOS)`.  Modelled from Pillow's `Image.thumbnail`
size computation (the resample filter and `reducing_gap` affect pixel
content, not dimensions); Python floats are modelled by exact
rationals. -/

/-- Pillow's `round_aspect(number, key)`: the closer of floor and ceil
under `key` (floor on ties, as Python `min` keeps the first argument),
but never below 1. -/
def roundAspect (number : ℚ) (key : ℤ → ℚ) : ℤ :=
  max (if key ⌊number⌋ ≤ key ⌈number⌉ then ⌊number⌋ else ⌈number⌉) 1

/-- Output dimensions of `img.thumbnail((bw, bh))` for a `w × h`
image: unchanged when the box already contains the image, else the
aspect-preserving fit, rounded per axis by `round_aspect`. -/
def thumbnailSize (w h bw bh : ℕ) : ℕ × ℕ :=
  if bw ≥ w ∧ bh ≥ h then (w, h)
  else
    let aspect : ℚ := (w : ℚ) / h
    if (bw : ℚ) / bh ≥ aspect then
      let x := roundAspect ((bh : ℚ) * aspect) (fun n => |aspect - (n : ℚ) / bh|)
      (x.toNat, bh)
    else
      let y := roundAspect ((bw : ℚ) / aspect)
        (fun n => if n = 0 then 0 else |aspect - (bw : ℚ) / n|)
      (bw, y.toNat)

theorem pyLower_abcd : pyLower "abcd!" = "abcd!" := by decide

theorem pyLower_abcd4 : pyLower "abcd" = "abcd" := by decide

theorem ratioQ_abcd : ratioQ "abcd!" "abcd" = 8 / 9 := by
  have h1 : "abcd!".length = 5 := by decide
  have h2 : "abcd".length = 4 := by decide
  have h3 : matchingTotal "abcd!".data "abcd".data = 4 := by decide
  rw [ratioQ, h1, h2, h3]
  norm_num

theorem isTopicDuplicate_abcd : isTopicDuplicate "abcd!" ["abcd"] (4/5) = true := by
  rw [isTopicDuplicate, pyLower_abcd, pyLower_abcd4, ratioQ_abcd]
  norm_num

/-- C1: with the default threshold `0.8`, `is_topic_duplicate` returns
`true` exactly when some existing title has case-insensitive
sequence-matcher similarity at least `0.8` with the candidate, and on
the empty existing-list it returns `false`. -/
theorem c1_duplicate_detector_iff :
    ∀ (newTopic : String) (existingTitles : List String),
      (isTopicDuplicate newTopic existingTitles (4/5) = true ↔
        ∃ title ∈ existingTitles,
          (4 : ℚ)/5 ≤ ratioQ (pyLower newTopic) (pyLower title)) ∧
      isTopicDuplicate newTopic [] (4/5) = false := by
  intro newTopic existingTitles
  refine ⟨?_, rfl⟩
  induction existingTitles with
  | nil => simp [isTopicDuplicate]
  | cons t rest ih =>
      rw [isTopicDuplicate]
      by_cases hsim : (4 : ℚ)/5 ≤ ratioQ (pyLower newTopic) (pyLower t)
      · simp [hsim]
      · simp only [if_neg hsim, ih, List.mem_cons]
        constructor
        · rintro ⟨x, hx, hr⟩
          exact ⟨x, Or.inr hx, hr⟩
        · rintro ⟨x, hx | hx, hr⟩
          · exact absurd (hx ▸ hr) hsim
          · exact ⟨x, hx, hr⟩

theorem savePastTopic_length_le (hist : List String) (t : String) :
    (savePastTopic hist t).length ≤ 30 := by
  simp only [savePastTopic, List.length_take]
  omega

theorem foldl_savePastTopic_length :
    ∀ (topics : List String) (init : List String), topics ≠ [] →
      (topics.foldl savePastTopic init).length ≤ 30 := by
  intro topics
  induction topics with
  | nil => intro _ hne; exact absurd rfl hne
  | cons t rest ih =>
      intro init _
      rw [List.foldl_cons]
      cases rest with
      | nil => simpa using savePastTopic_length_le init t
      | cons s rest2 => exact ih (savePastTopic init t) (by simp)

/-- C3: after any non-empty sequence of inserts through
`save_past_topic` the persisted history has at most 30 entries, and
immediately after an insert the inserted topic is at index 0. -/
theorem c3_history_capped_and_mostRecentFirst (init : List String)
    (topics : List String) (hne : topics ≠ []) :
    (topics.foldl savePastTopic init).length ≤ 30 ∧
    ∀ (hist : List String) (t : String), (savePastTopic hist t).head? = some t := by
  refine ⟨foldl_savePastTopic_length topics init hne, ?_⟩
  intro hist t
  rw [savePastTopic, show (30 : ℕ) = 29 + 1 from rfl, List.take_succ_cons]
  rfl

/-- C3 witness at a concrete insert sequence. -/
theorem c3_history_capped_witness :
    (["a", "b"] : List String) ≠ [] ∧
    ((["a", "b"] : List String).foldl savePastTopic []).length ≤ 30 ∧
    ∀ (hist : List String) (t : String), (savePastTopic hist t).head? = some t :=
  ⟨by decide, c3_history_capped_and_mostRecentFirst [] ["a", "b"] (by decide)⟩

theorem generateUniqueTopicAux_all_timeout (existingTitles last30 : List String)
    (service : ℕ → ApiResult) :
    ∀ (fuel i : ℕ), (∀ k, k < fuel → service (i + k) = .timeout) →
      generateUniqueTopicAux existingTitles last30 service i fuel =
        (some fallbackTopic, 2 * fuel) := by
  intro fuel
  induction fuel with
  | zero => intro i _; rfl
  | succ n ih =>
      intro i hto
      have h0 : service i = .timeout := by simpa using hto 0 (Nat.succ_pos n)
      have hrec := ih (i + 1) (fun k hk => by
        have := hto (k + 1) (by omega)
        simpa [Nat.add_assoc, Nat.add_comm 1 k] using this)
      rw [generateUniqueTopicAux, h0, hrec]
      simp [Nat.mul_succ]

/-- C4: when all 5 attempts hit a timeout, the generator sleeps the
fixed 2-second backoff after each timed-out attempt (10 seconds in
total) and returns the hardcoded fallback topic; no exception path is
taken (the result is `some`, not an error). -/
theorem c4_timeout_fallback (existingTitles last30 : List String)
    (service : ℕ → ApiResult) (hto : ∀ i, i < 5 → service i = .timeout) :
    generateUniqueTopic existingTitles last30 service 5 =
      (some fallbackTopic, 10) := by
  have := generateUniqueTopicAux_all_timeout existingTitles last30 service 5 0
    (fun k hk => by simpa using hto k hk)
  simpa [generateUniqueTopic] using this

/-- C4 witness with a service that always times out. -/
theorem c4_timeout_fallback_witness :
    (∀ i, i < 5 → (fun _ => ApiResult.timeout) i = ApiResult.timeout) ∧
    generateUniqueTopic [] [] (fun _ => ApiResult.timeout) 5 =
      (some fallbackTopic, 10) :=
  ⟨fun _ _ => rfl, c4_timeout_fallback [] [] (fun _ => ApiResult.timeout) (fun _ _ => rfl)⟩

/-- C5 counterexample: the claim that a returned non-fallback topic
passed the similarity detector against both the existing titles and
the stored history is false.  With history `["abcd"]` and a generated
topic `"abcd!"` (similarity `8/9 ≥ 0.8`, but not an exact member), the
generator returns `"abcd!"` even though the detector flags it against
the history: the code only applies `is_topic_duplicate` to the
existing blog titles and checks bare membership against the history. -/
theorem c5_counterexample :
    ¬ (∀ (existingTitles last30 : List String) (service : ℕ → ApiResult) (t : String),
        (generateUniqueTopic existingTitles last30 service 5).1 = some t →
        t ≠ fallbackTopic →
        isTopicDuplicate t existingTitles (4/5) = false ∧
        isTopicDuplicate t last30 (4/5) = false) := by
  intro hclaim
  have h := hclaim [] ["abcd"] (fun _ => ApiResult.ok "abcd!") "abcd!"
    (by decide) (by decide)
  have hdup := isTopicDuplicate_abcd
  rw [h.2] at hdup
  cases hdup

theorem generateUniqueTopicAux_accepted (existingTitles last30 : List String)
    (service : ℕ → ApiResult) :
    ∀ (fuel i : ℕ) (t : String),
      (generateUniqueTopicAux existingTitles last30 service i fuel).1 = some t →
      t ≠ fallbackTopic →
      isTopicDuplicate t existingTitles (4/5) = false ∧ t ∉ last30 := by
  intro fuel
  induction fuel with
  | zero =>
      intro i t hres hfb
      exact absurd (Option.some.inj hres).symm hfb
  | succ n ih =>
      intro i t hres hfb
      cases hsvc : service i with
      | ok s =>
          simp only [generateUniqueTopicAux, hsvc] at hres
          by_cases hcond : isTopicDuplicate s existingTitles (4/5) = false ∧ s ∉ last30
          · rw [if_pos hcond] at hres
            have hst : s = t := Option.some.inj hres
            exact hst ▸ hcond
          · rw [if_neg hcond] at hres
            exact ih (i + 1) t hres hfb
      | timeout =>
          simp only [generateUniqueTopicAux, hsvc] at hres
          exact ih (i + 1) t hres hfb
      | otherError =>
          simp only [generateUniqueTopicAux, hsvc] at hres
          cases hres

/-- C5 amended: a generated (non-fallback) topic is returned only when
it is not flagged by the duplicate detector against the
recently-published blog titles and is not an exact member of the
stored topic history; similarity against the history is not enforced
by the detector (it is only discouraged through the prompt). -/
theorem c5_amended_accept_condition (existingTitles last30 : List String)
    (service : ℕ → ApiResult) (t : String)
    (hres : (generateUniqueTopic existingTitles last30 service 5).1 = some t)
    (hfb : t ≠ fallbackTopic) :
    isTopicDuplicate t existingTitles (4/5) = false ∧ t ∉ last30 :=
  generateUniqueTopicAux_accepted existingTitles last30 service 5 0 t hres hfb

/-- C5 amended witness at a concrete accepting run. -/
theorem c5_amended_accept_condition_witness :
    (generateUniqueTopic [] [] (fun _ => ApiResult.ok "abcd") 5).1 = some "abcd" ∧
    "abcd" ≠ fallbackTopic ∧
    (isTopicDuplicate "abcd" [] (4/5) = false ∧ "abcd" ∉ ([] : List String)) :=
  ⟨by decide, by decide,
    c5_amended_accept_condition [] [] (fun _ => ApiResult.ok "abcd") "abcd"
      (by decide) (by decide)⟩

/-- C10: `load_past_topics` never raises — it returns `ok` (a list) in
every file state — and returns the empty list when the file is absent,
unreadable, or holds corrupted JSON; a valid JSON array is returned
as-is. -/
theorem c10_load_past_topics_total :
    loadPastTopics .absent = .ok [] ∧
    loadPastTopics .unreadable = .ok [] ∧
    loadPastTopics .corruptJson = .ok [] ∧
    ∀ xs : List String, loadPastTopics (.jsonArray xs) = .ok xs := by
  refine ⟨rfl, rfl, rfl, ?_⟩
  intro xs
  cases xs with
  | nil => rfl
  | cons x rest => rfl

theorem compressLoop_spec (encode : ℕ → List ℕ) (kb : ℕ) :
    ∀ q, 20 ≤ q → q % 5 = 0 →
      (encode (compressLoop encode kb q)).length ≤ kb * 1024 ∨
        compressLoop encode kb q = 20 := by
  intro q
  induction q using Nat.strong_induction_on with
  | _ q ih =>
    intro h20 h5
    rw [compressLoop]
    split
    · rename_i hstop
      rcases hstop with hsize | hq
      · exact Or.inl hsize
      · exact Or.inr (le_antisymm hq h20)
    · rename_i hcont
      push_neg at hcont
      exact ih (q - 5) (by omega) (by omega) (by omega)

/-- C2: for an existing source image, on return the derived output
file holds the bytes of the final encode quality, and either those
bytes fit the `max_size_kb` budget or the quality has reached the hard
floor of 20. -/
theorem c2_budget_or_quality_floor (encode : ℕ → List ℕ)
    (fs : String → Option (List ℕ)) (p : String) (kb : ℕ) (content : List ℕ)
    (hsrc : fs p = some content) :
    ∃ q, (compressAndResizeImage encode fs p kb).1 (compressedImagePath p) =
        some (encode q) ∧
      ((encode q).length ≤ kb * 1024 ∨ q = 20) := by
  refine ⟨compressLoop encode kb 85, ?_,
    compressLoop_spec encode kb 85 (by norm_num) (by norm_num)⟩
  unfold compressAndResizeImage
  rw [if_neg (by simp [hsrc])]
  simp

/-- C2 witness: a 2-byte encoding against a 1 KB budget. -/
theorem c2_budget_or_quality_floor_witness :
    ((fun _ : String => some ([] : List ℕ)) "img.png" = some []) ∧
    ∃ q, (compressAndResizeImage (fun _ => [0, 0]) (fun _ => some [])
        "img.png" 1).1 (compressedImagePath "img.png") = some [0, 0] ∧
      (([0, 0] : List ℕ).length ≤ 1 * 1024 ∨ q = 20) := by
  refine ⟨rfl, ?_⟩
  exact c2_budget_or_quality_floor (fun _ => [0, 0]) (fun _ => some [])
    "img.png" 1 [] rfl

/-- C8: when the source image is absent the transcoder returns the
static fallback path at once and leaves the file system untouched (no
resize, no re-encode, no write — the result does not depend on the
encoder at all). -/
theorem c8_absent_source_shortcircuit (encode : ℕ → List ℕ)
    (fs : String → Option (List ℕ)) (p : String) (kb : ℕ) (habs : fs p = none) :
    compressAndResizeImage encode fs p kb = (fs, fallbackImagePath) := by
  unfold compressAndResizeImage
  rw [if_pos habs]

/-- C8 witness on the empty file system. -/
theorem c8_absent_source_shortcircuit_witness :
    ((fun _ : String => (none : Option (List ℕ))) "img.png" = none) ∧
    compressAndResizeImage (fun _ => []) (fun _ => none) "img.png" 976 =
      (fun _ => none, fallbackImagePath) :=
  ⟨rfl, c8_absent_source_shortcircuit (fun _ => []) (fun _ => none) "img.png" 976 rfl⟩

/-- C9: the topic history is persisted only on article-generation
success.  When `generate_blog_post` produces no content, the history
is unchanged and the `__main__` guard stops the run before any publish
attempt; whenever the history changes, the article body was generated
and the returned content is that body plus the signature, with the
accepted topic persisted at the same time. -/
theorem c9_history_only_on_success (existingTitles : List String)
    (topicService : ℕ → ApiResult) (bodyService : BodyResult)
    (history : List String) :
    ((generateBlogPost existingTitles topicService bodyService history).1.1 = none →
      (generateBlogPost existingTitles topicService bodyService history).2 = history ∧
      runPublishes
        (generateBlogPost existingTitles topicService bodyService history).1.1
        (generateBlogPost existingTitles topicService bodyService history).1.2 = false) ∧
    ((generateBlogPost existingTitles topicService bodyService history).2 ≠ history →
      ∃ content topic, bodyService = .ok content ∧
        (generateBlogPost existingTitles topicService bodyService history).1 =
          (some (content ++ formatSignature ("html")), some topic) ∧
        (generateBlogPost existingTitles topicService bodyService history).2 =
          savePastTopic history topic) := by
  unfold generateBlogPost
  cases hT : (generateUniqueTopic existingTitles (history.take 30) topicService 5).1 with
  | none =>
      exact ⟨fun _ => ⟨rfl, rfl⟩, fun hne => absurd rfl hne⟩
  | some topic =>
      dsimp only
      by_cases hE : topic.isEmpty
      · rw [if_pos hE]
        exact ⟨fun _ => ⟨rfl, rfl⟩, fun hne => absurd rfl hne⟩
      · rw [if_neg hE]
        cases bodyService with
        | error e =>
            exact ⟨fun _ => ⟨rfl, rfl⟩, fun hne => absurd rfl hne⟩
        | ok content =>
            refine ⟨fun hnone => ?_, fun _ => ⟨content, topic, rfl, rfl, rfl⟩⟩
            cases hnone

/-- C9 witness: topic generation aborts (non-timeout error), so the
history is untouched and the publish sequence does not run. -/
theorem c9_history_only_on_success_witness :
    (generateBlogPost [] (fun _ => ApiResult.otherError) (Except.ok "body")
        ["old"]).2 = ["old"] ∧
    runPublishes
      (generateBlogPost [] (fun _ => ApiResult.otherError) (Except.ok "body")
        ["old"]).1.1
      (generateBlogPost [] (fun _ => ApiResult.otherError) (Except.ok "body")
        ["old"]).1.2 = false :=
  (c9_history_only_on_success [] (fun _ => ApiResult.otherError)
    (Except.ok "body") ["old"]).1 (by decide)

theorem dropWhile_dot_decomp :
    ∀ (r : List Char), '.' ∈ r →
      ∃ w rest, r = w ++ '.' :: rest ∧
        r.dropWhile (fun c => c ≠ '.') = '.' :: rest := by
  intro r hr
  induction r with
  | nil => cases hr
  | cons a as ih =>
      by_cases ha : a = '.'
      · subst ha
        exact ⟨[], as, rfl, by simp [List.dropWhile_cons]⟩
      · have hmem : '.' ∈ as := by
          rcases List.mem_cons.mp hr with h1 | h1
          · exact absurd h1.symm ha
          · exact h1
        obtain ⟨w, rest, h1, h2⟩ := ih hmem
        refine ⟨a :: w, rest, by simp [h1], ?_⟩
        simpa [List.dropWhile_cons, ha] using h2

theorem stemData_append_ne (cs : List Char) :
    stemData cs ++ "_compressed.jpg".data ≠ cs := by
  by_cases hdot : '.' ∈ cs
  · have hrev : '.' ∈ cs.reverse := by simpa using hdot
    obtain ⟨w, rest, hr, hdrop⟩ := dropWhile_dot_decomp cs.reverse hrev
    have hcs : cs = rest.reverse ++ '.' :: w.reverse := by
      have h2 := congrArg List.reverse hr
      simpa [List.reverse_append] using h2
    have hstem : stemData cs = rest.reverse := by
      rw [stemData, if_pos hdot, hdrop]
      simp
    rw [hstem]
    intro heq
    rw [hcs] at heq
    have hsfx : "_compressed.jpg".data = '.' :: w.reverse :=
      List.append_cancel_left heq
    have h3 : "_compressed.jpg".data = '_' :: "compressed.jpg".data := rfl
    rw [h3] at hsfx
    have : '_' = '.' := (List.cons.inj hsfx).1
    exact absurd this (by decide)
  · rw [stemData, if_neg hdot]
    intro heq
    have hlen := congrArg List.length heq
    have h15 : ("_compressed.jpg".data).length = 15 := rfl
    rw [List.length_append, h15] at hlen
    omega

theorem compressedImagePath_ne (p : String) : compressedImagePath p ≠ p := by
  intro h
  have hd := congrArg String.data h
  have hcp : (compressedImagePath p).data =
      stemData p.data ++ "_compressed.jpg".data := rfl
  rw [hcp] at hd
  exact stemData_append_ne p.data hd

/-- C7: for an existing source image the transcoder leaves the source
file untouched, returns the derived path (extension replaced by
`_compressed.jpg`), and that derived path never coincides with the
input path. -/
theorem c7_source_not_mutated (encode : ℕ → List ℕ)
    (fs : String → Option (List ℕ)) (p : String) (kb : ℕ) (content : List ℕ)
    (hsrc : fs p = some content) :
    (compressAndResizeImage encode fs p kb).1 p = some content ∧
    (compressAndResizeImage encode fs p kb).2 = compressedImagePath p ∧
    compressedImagePath p ≠ p := by
  have hne := compressedImagePath_ne p
  unfold compressAndResizeImage
  rw [if_neg (by simp [hsrc])]
  refine ⟨?_, ?_, hne⟩
  · dsimp only
    rw [if_neg (fun hp : p = compressedImagePath p => hne hp.symm)]
    exact hsrc
  · dsimp only
    rw [if_pos (by simp)]

/-- C7 witness with a one-entry file system. -/
theorem c7_source_not_mutated_witness :
    ((fun _ : String => some ([] : List ℕ)) "img.png" = some []) ∧
    ((compressAndResizeImage (fun _ => []) (fun _ => some [])
        "img.png" 976).1 "img.png" = some [] ∧
      (compressAndResizeImage (fun _ => []) (fun _ => some [])
        "img.png" 976).2 = compressedImagePath "img.png" ∧
      compressedImagePath "img.png" ≠ "img.png") :=
  ⟨rfl, c7_source_not_mutated (fun _ => []) (fun _ => some []) "img.png" 976 [] rfl⟩

theorem thumbnailSize_eq_fit (w h bw bh : ℕ) (hc : bw ≥ w ∧ bh ≥ h) :
    thumbnailSize w h bw bh = (w, h) := by
  rw [thumbnailSize, if_pos hc]

theorem thumbnailSize_eq_wide (w h bw bh : ℕ) (hc : ¬(bw ≥ w ∧ bh ≥ h))
    (h2 : (bw : ℚ) / bh ≥ (w : ℚ) / h) :
    thumbnailSize w h bw bh =
      ((roundAspect ((bh : ℚ) * ((w : ℚ) / h))
          (fun n => |(w : ℚ) / h - (n : ℚ) / bh|)).toNat, bh) := by
  rw [thumbnailSize, if_neg hc]
  dsimp only
  rw [if_pos h2]

theorem thumbnailSize_eq_tall (w h bw bh : ℕ) (hc : ¬(bw ≥ w ∧ bh ≥ h))
    (h2 : ¬((bw : ℚ) / bh ≥ (w : ℚ) / h)) :
    thumbnailSize w h bw bh =
      (bw, (roundAspect ((bw : ℚ) / ((w : ℚ) / h))
          (fun n => if n = 0 then 0 else |(w : ℚ) / h - (bw : ℚ) / (n : ℚ)|)).toNat) := by
  rw [thumbnailSize, if_neg hc]
  dsimp only
  rw [if_neg h2]

theorem roundAspect_one_le (n : ℚ) (key : ℤ → ℚ) :
    1 ≤ roundAspect n key := by
  rw [roundAspect]
  exact le_max_right _ _

theorem roundAspect_le_ceil (n : ℚ) (key : ℤ → ℚ) (hn : 0 < n) :
    roundAspect n key ≤ ⌈n⌉ := by
  have hceil : 1 ≤ ⌈n⌉ := Int.ceil_pos.mpr hn
  rw [roundAspect]
  by_cases hk : key ⌊n⌋ ≤ key ⌈n⌉
  · rw [if_pos hk]
    exact max_le (Int.floor_le_ceil n) hceil
  · rw [if_neg hk]
    exact max_le le_rfl hceil

theorem roundAspect_abs_lt (n : ℚ) (key : ℤ → ℚ) (hn : 0 < n) :
    |(roundAspect n key : ℚ) - n| < 1 := by
  have h2 : n < ⌊n⌋ + 1 := Int.lt_floor_add_one n
  have h3 : (⌊n⌋ : ℚ) ≤ n := Int.floor_le n
  have h4 : n ≤ ⌈n⌉ := Int.le_ceil n
  have h5 : (⌈n⌉ : ℚ) < n + 1 := Int.ceil_lt_add_one n
  have hfloor0 : 0 ≤ ⌊n⌋ := Int.floor_nonneg.mpr hn.le
  have hceil1 : 1 ≤ ⌈n⌉ := Int.ceil_pos.mpr hn
  rw [roundAspect]
  by_cases hk : key ⌊n⌋ ≤ key ⌈n⌉
  · rw [if_pos hk]
    rcases Int.lt_or_le ⌊n⌋ 1 with hf | hf
    · have hf0 : ⌊n⌋ = 0 := by omega
      rw [hf0, max_eq_right (by norm_num : (0:ℤ) ≤ 1)]
      rw [hf0] at h2
      push_cast at h2
      rw [abs_sub_lt_iff]
      constructor <;> push_cast <;> linarith
    · rw [max_eq_left hf]
      rw [abs_sub_lt_iff]
      constructor <;> linarith
  · rw [if_neg hk]
    rw [max_eq_left hceil1]
    rw [abs_sub_lt_iff]
    constructor <;> linarith

theorem roundAspect_toNat_le (n : ℚ) (key : ℤ → ℚ) (hn : 0 < n) (m : ℕ)
    (hm : n ≤ m) : (roundAspect n key).toNat ≤ m := by
  apply Int.toNat_le.mpr
  exact le_trans (roundAspect_le_ceil n key hn) (Int.ceil_le.mpr (by exact_mod_cast hm))

theorem roundAspect_toNat_cast (n : ℚ) (key : ℤ → ℚ) :
    (((roundAspect n key).toNat : ℚ)) = ((roundAspect n key : ℤ) : ℚ) := by
  have h0 : (0 : ℤ) ≤ roundAspect n key :=
    le_trans zero_le_one (roundAspect_one_le n key)
  exact_mod_cast Int.toNat_of_nonneg h0

theorem roundAspect_toNat_abs_lt (n : ℚ) (key : ℤ → ℚ) (hn : 0 < n) :
    |(((roundAspect n key).toNat : ℕ) : ℚ) - n| < 1 := by
  rw [roundAspect_toNat_cast]
  exact roundAspect_abs_lt n key hn

/-- C6: the transcoder's resize step never upscales — each output axis
is at most the minimum of the source axis and the bounding-box axis —
and it preserves the aspect ratio up to the unavoidable rounding to
whole pixels: the cross-difference `outW * h - outH * w` stays below
one pixel's worth (`max w h`), and is exactly `0` whenever no resize
occurs. -/
theorem c6_thumbnail_never_upscales (w h bw bh : ℕ)
    (hw : 0 < w) (hh : 0 < h) (hbw : 0 < bw) (hbh : 0 < bh) :
    (thumbnailSize w h bw bh).1 ≤ min w bw ∧
    (thumbnailSize w h bw bh).2 ≤ min h bh ∧
    |((thumbnailSize w h bw bh).1 : ℚ) * h - ((thumbnailSize w h bw bh).2 : ℚ) * w| <
      max w h := by
  have hwQ : (0:ℚ) < w := by exact_mod_cast hw
  have hhQ : (0:ℚ) < h := by exact_mod_cast hh
  have hbwQ : (0:ℚ) < bw := by exact_mod_cast hbw
  have hbhQ : (0:ℚ) < bh := by exact_mod_cast hbh
  by_cases h1 : bw ≥ w ∧ bh ≥ h
  · rw [thumbnailSize_eq_fit w h bw bh h1]
    refine ⟨le_min le_rfl h1.1, le_min le_rfl h1.2, ?_⟩
    have hz : ((w:ℚ)) * h - (h:ℚ) * w = 0 := by ring
    dsimp only
    rw [hz, abs_zero]
    have : (0:ℚ) < max (w:ℚ) (h:ℚ) := lt_max_of_lt_left hwQ
    simpa [Nat.cast_max] using this
  · by_cases h2 : (bw : ℚ) / bh ≥ (w : ℚ) / h
    · -- wide box: the height is pinned to bh, the width is rounded
      have hcross : (w:ℚ) * bh ≤ (bw:ℚ) * h := by
        rw [ge_iff_le, div_le_div_iff₀ hhQ hbhQ] at h2
        exact h2
      have hbh_le_h : bh ≤ h := by
        by_contra hcon
        push_neg at hcon
        have hconQ : (h:ℚ) < bh := by exact_mod_cast hcon
        have hwlt : (w:ℚ) * h < (w:ℚ) * bh := by
          exact mul_lt_mul_of_pos_left hconQ hwQ
        have hlt2 : (w:ℚ) * h < (bw:ℚ) * h := lt_of_lt_of_le hwlt hcross
        have hwbw : (w:ℚ) < bw := lt_of_mul_lt_mul_right hlt2 hhQ.le
        have hw_nat : w < bw := by exact_mod_cast hwbw
        exact h1 ⟨le_of_lt hw_nat, le_of_lt hcon⟩
      have hbh_le_hQ : (bh:ℚ) ≤ h := by exact_mod_cast hbh_le_h
      have hnpos : 0 < (bh : ℚ) * ((w : ℚ) / h) := by positivity
      have hn_le_bw : (bh : ℚ) * ((w : ℚ) / h) ≤ (bw:ℚ) := by
        rw [← mul_div_assoc, div_le_iff₀ hhQ]
        calc (bh:ℚ) * w = w * bh := mul_comm _ _
          _ ≤ bw * h := hcross
      have hn_le_w : (bh : ℚ) * ((w : ℚ) / h) ≤ (w:ℚ) := by
        rw [← mul_div_assoc, div_le_iff₀ hhQ]
        calc (bh:ℚ) * w ≤ (h:ℚ) * w := mul_le_mul_of_nonneg_right hbh_le_hQ hwQ.le
          _ = w * h := mul_comm _ _
      rw [thumbnailSize_eq_wide w h bw bh h1 h2]
      dsimp only
      refine ⟨?_, le_min hbh_le_h le_rfl, ?_⟩
      · exact le_min
          (roundAspect_toNat_le _ _ hnpos w (by exact_mod_cast hn_le_w))
          (roundAspect_toNat_le _ _ hnpos bw (by exact_mod_cast hn_le_bw))
      · have habs := roundAspect_toNat_abs_lt ((bh : ℚ) * ((w : ℚ) / h))
          (fun n => |(w : ℚ) / h - (n : ℚ) / bh|) hnpos
        have hnh : ((bh : ℚ) * ((w : ℚ) / h)) * h = (bh:ℚ) * w := by
          field_simp
        have hdiff :
            ((((roundAspect ((bh : ℚ) * ((w : ℚ) / h))
                (fun n => |(w : ℚ) / h - (n : ℚ) / bh|)).toNat : ℕ)) : ℚ) * h -
              (bh:ℚ) * w =
            (((((roundAspect ((bh : ℚ) * ((w : ℚ) / h))
                (fun n => |(w : ℚ) / h - (n : ℚ) / bh|)).toNat : ℕ)) : ℚ) -
              (bh : ℚ) * ((w : ℚ) / h)) * h := by
          rw [sub_mul, hnh]
        rw [hdiff, abs_mul, abs_of_pos hhQ]
        have hlt : |((((roundAspect ((bh : ℚ) * ((w : ℚ) / h))
            (fun n => |(w : ℚ) / h - (n : ℚ) / bh|)).toNat : ℕ)) : ℚ) -
              (bh : ℚ) * ((w : ℚ) / h)| * h < 1 * h :=
          mul_lt_mul_of_pos_right habs hhQ
        rw [one_mul] at hlt
        calc _ < (h:ℚ) := hlt
          _ ≤ ((max w h : ℕ) : ℚ) := by exact_mod_cast le_max_right w h
    · -- tall box: the width is pinned to bw, the height is rounded
      have hlt : (bw:ℚ) / bh < (w:ℚ) / h := lt_of_not_ge h2
      have hcross : (bw:ℚ) * h < (w:ℚ) * bh := by
        rw [div_lt_div_iff₀ hbhQ hhQ] at hlt
        exact hlt
      have hbw_le_w : bw ≤ w := by
        by_contra hcon
        push_neg at hcon
        have hconQ : (w:ℚ) < bw := by exact_mod_cast hcon
        have h6 : (w:ℚ) * h < (bw:ℚ) * h := mul_lt_mul_of_pos_right hconQ hhQ
        have h7 : (w:ℚ) * h < (w:ℚ) * bh := lt_trans h6 hcross
        have h8 : (h:ℚ) < bh := lt_of_mul_lt_mul_left h7 hwQ.le
        have h9 : h < bh := by exact_mod_cast h8
        exact h1 ⟨le_of_lt hcon, le_of_lt h9⟩
      have hbw_le_wQ : (bw:ℚ) ≤ w := by exact_mod_cast hbw_le_w
      have haspect_pos : (0:ℚ) < (w : ℚ) / h := by positivity
      have hneq : (bw : ℚ) / ((w : ℚ) / h) = (bw:ℚ) * h / w := by
        field_simp
      have hnpos : 0 < (bw : ℚ) / ((w : ℚ) / h) := by positivity
      have hn_le_bh : (bw : ℚ) / ((w : ℚ) / h) ≤ (bh:ℚ) := by
        rw [hneq, div_le_iff₀ hwQ]
        calc (bw:ℚ) * h ≤ w * bh := hcross.le
          _ = bh * w := mul_comm _ _
      have hn_le_h : (bw : ℚ) / ((w : ℚ) / h) ≤ (h:ℚ) := by
        rw [hneq, div_le_iff₀ hwQ]
        calc (bw:ℚ) * h ≤ (w:ℚ) * h := mul_le_mul_of_nonneg_right hbw_le_wQ hhQ.le
          _ = h * w := mul_comm _ _
      rw [thumbnailSize_eq_tall w h bw bh h1 h2]
      dsimp only
      refine ⟨le_min hbw_le_w le_rfl, ?_, ?_⟩
      · exact le_min
          (roundAspect_toNat_le _ _ hnpos h (by exact_mod_cast hn_le_h))
          (roundAspect_toNat_le _ _ hnpos bh (by exact_mod_cast hn_le_bh))
      · have habs := roundAspect_toNat_abs_lt ((bw : ℚ) / ((w : ℚ) / h))
          (fun n => if n = 0 then 0 else |(w : ℚ) / h - (bw : ℚ) / (n : ℚ)|) hnpos
        have hnw : ((bw : ℚ) / ((w : ℚ) / h)) * w = (bw:ℚ) * h := by
          field_simp
        have hdiff :
            ((bw:ℚ)) * h -
              ((((roundAspect ((bw : ℚ) / ((w : ℚ) / h))
                (fun n => if n = 0 then 0 else |(w : ℚ) / h - (bw : ℚ) / (n : ℚ)|)).toNat : ℕ)) : ℚ) * w =
            (((bw : ℚ) / ((w : ℚ) / h)) -
              ((((roundAspect ((bw : ℚ) / ((w : ℚ) / h))
                (fun n => if n = 0 then 0 else |(w : ℚ) / h - (bw : ℚ) / (n : ℚ)|)).toNat : ℕ)) : ℚ)) * w := by
          rw [sub_mul, hnw]
        rw [hdiff, abs_mul, abs_of_pos hwQ]
        rw [abs_sub_comm] at habs
        have hlt2 : |((bw : ℚ) / ((w : ℚ) / h)) -
            ((((roundAspect ((bw : ℚ) / ((w : ℚ) / h))
              (fun n => if n = 0 then 0 else |(w : ℚ) / h - (bw : ℚ) / (n : ℚ)|)).toNat : ℕ)) : ℚ)| * w <
            1 * w :=
          mul_lt_mul_of_pos_right habs hwQ
        rw [one_mul] at hlt2
        calc _ < (w:ℚ) := hlt2
          _ ≤ ((max w h : ℕ) : ℚ) := by exact_mod_cast le_max_left w h

/-- C6 witness at the source's 1024×1024 image and 720×720 box. -/
theorem c6_thumbnail_never_upscales_witness :
    0 < 1024 ∧ 0 < 720 ∧
    ((thumbnailSize 1024 1024 720 720).1 ≤ min 1024 720 ∧
      (thumbnailSize 1024 1024 720 720).2 ≤ min 1024 720 ∧
      |((thumbnailSize 1024 1024 720 720).1 : ℚ) * 1024 -
          ((thumbnailSize 1024 1024 720 720).2 : ℚ) * 1024| < max 1024 1024) :=
  ⟨by norm_num, by norm_num,
    c6_thumbnail_never_upscales 1024 1024 720 720
      (by norm_num) (by norm_num) (by norm_num) (by norm_num)⟩

end AutomationBlog
